import Mathlib

/-!
Verification of the pyra-labs/logger error-deduplication and alerting logic.

The development shallowly embeds the three source files:
* `src/logger.ts` — the `AppLogger` class: window normalization in the
  constructor, the mail-transport `write` callback (the dedup cache step and
  the per-recipient dispatch loop), and the daily cache clear.
* the unnamed variant of `logger.ts` (same `write` callback body).
* `src/config.ts` — the zod environment schema, in particular the `EMAIL_TO`
  transform (comma split, trim, per-entry regex test).

JavaScript strings are modelled as `String` (or `List Char` where the
character-level regex of the config validation needs it); JavaScript numbers
holding epoch milliseconds are modelled as `Int`, so `now - lastSent` is exact
integer arithmetic as it is for real clock values.
-/

namespace PyraLogger

/-- `ErrorCacheEntry` from `types/ErrorCacheEntry.interface.ts` as used by
`logger.ts`: occurrence count since the last reset, and the epoch-millisecond
timestamp of the last dispatched notification (`0` = never sent). -/
structure ErrorCacheEntry where
  count : Nat
  lastSent : Int
deriving DecidableEq, Repr

/-- The environment configuration produced by `config.ts` (`envSchema`):
`EMAIL_TO` is already the transformed list of addresses. -/
structure Config where
  EMAIL_TO : List String
  EMAIL_FROM : String
  EMAIL_HOST : String
  EMAIL_PORT : Int
  EMAIL_USER : String
  EMAIL_PASSWORD : String

/-- One outbound mail message as passed to `mailTransporter.sendMail`
(`logger.ts:87-91`). -/
structure Email where
  fromAddr : String
  toAddr : String
  subject : String
  text : String
deriving DecidableEq, Repr

/-- The dedup cache `dailyErrorCache : Map<string, ErrorCacheEntry>`
(`logger.ts:24`), modelled extensionally as a partial map; insertion order is
irrelevant to the code. -/
abbrev Cache := String → Option ErrorCacheEntry

def emptyCache : Cache := fun _ => none

/-- `this.dailyErrorCache.set(cacheKey, cacheEntry)` (`logger.ts:101`). -/
def Cache.set (c : Cache) (k : String) (e : ErrorCacheEntry) : Cache :=
  fun k' => if k' = k then some e else c k'

/-- `this.dailyErrorCache.clear()` — the body of the daily `setInterval`
callback (`logger.ts:42-44`). -/
def Cache.clear (_ : Cache) : Cache := fun _ => none

/-- Window normalization in the `AppLogger` constructor (`logger.ts:35-39`):
`undefined` or negative `dailyErrorCacheTimeMs` becomes `0`. -/
def normWindow : Option Int → Int
  | none => 0
  | some v => if v < 0 then 0 else v

/-- `Math.round(this.dailyErrorCacheTimeMs / 1000 / 60)` (`logger.ts:69`).
For the non-negative windows the constructor produces,
`Math.round(x) = ⌊x + 1/2⌋`, i.e. `⌊(W + 30000) / 60000⌋`. -/
def windowMinutes (W : Int) : Int := (W + 30000).fdiv 60000

/-- The cache key `` `${parsedMessage.level}: ${parsedMessage.message}` ``
(`logger.ts:74`). -/
def cacheKeyOf (level message : String) : String := level ++ ": " ++ message

/-- The email subject computed at `logger.ts:82-84`: occurrence/window text
when the window is positive, bare `"<name> Error"` otherwise. -/
def emailSubject (name : String) (W : Int) (count : Nat) : String :=
  if W > 0 then
    name ++ " Error (" ++ toString count ++ " occurrences in past "
      ++ toString (windowMinutes W) ++ " minutes)"
  else
    name ++ " Error"

/-- One `sendMail` argument object for one recipient (`logger.ts:87-91`). -/
def mkErrorEmail (cfg : Config) (subject text admin : String) : Email :=
  { fromAddr := cfg.EMAIL_FROM, toAddr := admin, subject := subject, text := text }

/-- The `for (const admin of config.EMAIL_TO)` dispatch loop
(`logger.ts:86-95`): one `sendMail` attempt per configured recipient. -/
def sendErrorEmails (cfg : Config) (subject text : String) : List Email :=
  cfg.EMAIL_TO.map (mkErrorEmail cfg subject text)

/-- The dispatch loop together with the asynchronous per-send outcomes:
`ok admin = false` means that recipient's `sendMail` promise rejects, which the
attached `.catch` turns into one `console.error` diagnostic line
(`logger.ts:92-94`). The loop itself calls `sendMail` for every recipient
unconditionally, so the attempt list does not depend on `ok`; rejections
surface only as console lines and are never re-raised. -/
def dispatchWithOutcomes (cfg : Config) (subject text : String)
    (ok : String → Bool) : List Email × List String :=
  (sendErrorEmails cfg subject text,
   (cfg.EMAIL_TO.filter (fun a => !(ok a))).map
     (fun a => "Failed to send error email: " ++ a))

/-- The observable result of one invocation of the mail-transport stream's
`write` callback. `sent` records whether the guard at `logger.ts:81` was
taken; `emails` are the `sendMail` attempts made inside that branch. -/
structure WriteResult where
  sent : Bool
  emails : List Email
  cache : Cache

/-- The body of the `write` callback (`logger.ts:72-105`) after a successful
`JSON.parse`, for one parsed record `(level, message)` whose raw serialized
chunk is `raw`, arriving when `Date.now()` returns `now`:
look up or lazily create the entry, increment its count, and if
`now - lastSent > W` compose the subject, attempt one send per recipient, and
reset the entry to `{count: 0, lastSent: now}`; finally store the entry.
The callback runs synchronously on the single-threaded event loop, so the
whole decision-plus-mutation is one atomic step, as this single Lean function
application is. -/
def write (cfg : Config) (name : String) (W : Int) (cache : Cache)
    (level message raw : String) (now : Int) : WriteResult :=
  let cacheKey := cacheKeyOf level message
  let cacheEntry := (cache cacheKey).getD { count := 0, lastSent := 0 }
  let count1 := cacheEntry.count + 1
  if now - cacheEntry.lastSent > W then
    { sent := true,
      emails := sendErrorEmails cfg (emailSubject name W count1) raw,
      cache := cache.set cacheKey { count := 0, lastSent := now } }
  else
    { sent := false,
      emails := [],
      cache := cache.set cacheKey { count := count1, lastSent := cacheEntry.lastSent } }

/-- A raw stream chunk reaching the `write` callback, together with the result
`JSON.parse` would produce on it (`logger.ts:73`): `some (level, message)` for
a well-formed serialized record, `none` when `JSON.parse` throws. -/
structure RawMessage where
  raw : String
  parsed : Option (String × String)

/-- The full `write` callback including the unguarded `JSON.parse` at
`logger.ts:73`: on a chunk that is not valid JSON the parse throws, the
callback aborts exceptionally (`Except.error`) and nothing is dispatched. -/
def writeRaw (cfg : Config) (name : String) (W : Int) (cache : Cache)
    (msg : RawMessage) (now : Int) : Except String WriteResult :=
  match msg.parsed with
  | none => .error "SyntaxError: Unexpected token in JSON"
  | some (level, message) => .ok (write cfg name W cache level message msg.raw now)

/-- Runs the `write` callback over a sequence of arriving error records, each
given as `(level, message, raw, now)`, threading the cache and collecting each
invocation's send attempts. -/
def runWrites (cfg : Config) (name : String) (W : Int) :
    Cache → List (String × String × String × Int) → List (List Email) × Cache
  | cache, [] => ([], cache)
  | cache, (level, message, raw, now) :: rest =>
    let r := write cfg name W cache level message raw now
    let tail := runWrites cfg name W r.cache rest
    (r.emails :: tail.1, tail.2)

/-! ### Config validation (`config.ts`) -/

/-- A character matched by the `[^\s@]` class of the `EMAIL_TO` regex
(`config.ts:11`): neither whitespace nor `@`. -/
def okEmailChar (c : Char) : Bool := !c.isWhitespace && c != '@'

/-- JavaScript `String.prototype.split(sep)` for a single-character separator,
on the character list of the string: always returns at least one (possibly
empty) piece, `"".split(sep) = [""]`. -/
def splitOnChar (sep : Char) : List Char → List (List Char)
  | [] => [[]]
  | c :: rest =>
    if c = sep then [] :: splitOnChar sep rest
    else
      match splitOnChar sep rest with
      | [] => [[c]]
      | h :: t => (c :: h) :: t

/-- JavaScript `String.prototype.trim()`: strip whitespace from both ends. -/
def trimChars (l : List Char) : List Char :=
  ((l.dropWhile Char.isWhitespace).reverse.dropWhile Char.isWhitespace).reverse

/-- The domain part of the regex, `[^\s@]+\.[^\s@]+`: all characters in the
class, with a `.` that is neither the first nor the last character. -/
def domainOk (d : List Char) : Bool :=
  d.all okEmailChar && ((d.drop 1).dropLast.contains '.')

/-- The test `/^[^\s@]+@[^\s@]+\.[^\s@]+$/.test(email)` (`config.ts:11`):
exactly one `@` (both classes exclude it), a non-empty all-class local part,
and a domain part matching `[^\s@]+\.[^\s@]+`. -/
def emailRegexTest (l : List Char) : Bool :=
  match splitOnChar '@' l with
  | [loc, dom] => !loc.isEmpty && loc.all okEmailChar && domainOk dom
  | _ => false

/-- The `EMAIL_TO` transform (`config.ts:7-16`): split on commas, trim each
entry, and throw unless every entry passes the regex test. -/
def parseEMAIL_TO (l : List Char) : Except String (List (List Char)) :=
  let emails := (splitOnChar ',' l).map trimChars
  if emails.all emailRegexTest then .ok emails
  else .error "Invalid email list format: must be comma-separated email addresses"

/-- A concrete configuration used to instantiate concrete runs. -/
def sampleConfig : Config :=
  { EMAIL_TO := ["ops@example.com"]
    EMAIL_FROM := "noreply@example.com"
    EMAIL_HOST := "smtp.example.com"
    EMAIL_PORT := 587
    EMAIL_USER := "noreply@example.com"
    EMAIL_PASSWORD := "pw" }

/-- `this.dailyErrorCache.get(cacheKey) || { count: 0, lastSent: 0 }`
(`logger.ts:77`): the entry the `write` callback works on. -/
def entryBefore (cache : Cache) (level message : String) : ErrorCacheEntry :=
  (cache (cacheKeyOf level message)).getD { count := 0, lastSent := 0 }

theorem Cache.set_same (c : Cache) (k : String) (e : ErrorCacheEntry) :
    Cache.set c k e k = some e := by
  simp [Cache.set]

theorem Cache.set_other (c : Cache) (k : String) (e : ErrorCacheEntry)
    (k' : String) (h : k' ≠ k) : Cache.set c k e k' = c k' := by
  simp [Cache.set, h]

/-- The `write` callback when the guard at `logger.ts:81` is taken. -/
theorem write_sent_eq (cfg : Config) (name : String) (W : Int) (cache : Cache)
    (level message raw : String) (now : Int)
    (h : now - (entryBefore cache level message).lastSent > W) :
    write cfg name W cache level message raw now
      = { sent := true,
          emails := sendErrorEmails cfg
            (emailSubject name W ((entryBefore cache level message).count + 1)) raw,
          cache := Cache.set cache (cacheKeyOf level message)
            { count := 0, lastSent := now } } := by
  unfold write entryBefore at *
  rw [if_pos h]

/-- The `write` callback when the guard at `logger.ts:81` is not taken. -/
theorem write_not_sent_eq (cfg : Config) (name : String) (W : Int) (cache : Cache)
    (level message raw : String) (now : Int)
    (h : ¬ (now - (entryBefore cache level message).lastSent > W)) :
    write cfg name W cache level message raw now
      = { sent := false,
          emails := [],
          cache := Cache.set cache (cacheKeyOf level message)
            { count := (entryBefore cache level message).count + 1,
              lastSent := (entryBefore cache level message).lastSent } } := by
  unfold write entryBefore at *
  rw [if_neg h]

/-- C1: for every error event with signature `level: message` arriving at time
`now`, the dedup step looks up or lazily creates the cache entry (the entry
exists afterwards), increments its count, and decides to send iff
`now - lastSent` is strictly greater than the window `W`; arrival exactly at
the boundary `now - lastSent = W` does not trigger a send. -/
theorem dedup_decision_c1 (cfg : Config) (name : String) (W : Int) (cache : Cache)
    (level message raw : String) (now : Int) :
    (write cfg name W cache level message raw now).sent
      = decide (now - (entryBefore cache level message).lastSent > W)
    ∧ (now - (entryBefore cache level message).lastSent = W →
        (write cfg name W cache level message raw now).sent = false)
    ∧ ((write cfg name W cache level message raw now).cache
        (cacheKeyOf level message)).isSome = true := by
  by_cases h : now - (entryBefore cache level message).lastSent > W
  · rw [write_sent_eq cfg name W cache level message raw now h]
    refine ⟨by simp [h], fun hb => absurd h (by omega), by simp [Cache.set_same]⟩
  · rw [write_not_sent_eq cfg name W cache level message raw now h]
    exact ⟨by simp [h], fun _ => rfl, by simp [Cache.set_same]⟩

theorem dedup_decision_c1_witness :
    (write sampleConfig "App" 60000 emptyCache "error" "disk full" "r" 100000).sent
        = decide ((100000 : Int) - (entryBefore emptyCache "error" "disk full").lastSent > 60000)
      ∧ ((100000 : Int) - (entryBefore emptyCache "error" "disk full").lastSent = 60000 →
          (write sampleConfig "App" 60000 emptyCache "error" "disk full" "r" 100000).sent = false)
      ∧ ((write sampleConfig "App" 60000 emptyCache "error" "disk full" "r" 100000).cache
          (cacheKeyOf "error" "disk full")).isSome = true :=
  dedup_decision_c1 sampleConfig "App" 60000 emptyCache "error" "disk full" "r" 100000

/-- C3: when the send decision is true, after the dispatch the cache entry for
the signature is `{count := 0, lastSent := now}` (`logger.ts:97-98`); the
decision and the mutation happen inside the one synchronous `write` call,
modelled here as a single function application, so no other event for the
signature can interleave between them. -/
theorem send_resets_entry_c3 (cfg : Config) (name : String) (W : Int) (cache : Cache)
    (level message raw : String) (now : Int)
    (h : (write cfg name W cache level message raw now).sent = true) :
    (write cfg name W cache level message raw now).cache (cacheKeyOf level message)
      = some { count := 0, lastSent := now } := by
  by_cases hc : now - (entryBefore cache level message).lastSent > W
  · rw [write_sent_eq cfg name W cache level message raw now hc]
    simp [Cache.set_same]
  · rw [write_not_sent_eq cfg name W cache level message raw now hc] at h
    simp at h

theorem send_resets_entry_c3_witness :
    (write sampleConfig "App" 60000 emptyCache "error" "disk full" "r" 100000).sent = true
    ∧ (write sampleConfig "App" 60000 emptyCache "error" "disk full" "r" 100000).cache
        (cacheKeyOf "error" "disk full") = some { count := 0, lastSent := 100000 } :=
  ⟨by decide,
   send_resets_entry_c3 sampleConfig "App" 60000 emptyCache "error" "disk full" "r" 100000
     (by decide)⟩

/-- C6: when the send decision is false, the only state change is the
increment of the signature's count: `lastSent` is unchanged, no send is
attempted, and every other cache key is untouched. -/
theorem no_send_frame_c6 (cfg : Config) (name : String) (W : Int) (cache : Cache)
    (level message raw : String) (now : Int)
    (h : ¬ (now - (entryBefore cache level message).lastSent > W)) :
    (write cfg name W cache level message raw now).sent = false
    ∧ (write cfg name W cache level message raw now).emails = []
    ∧ (write cfg name W cache level message raw now).cache (cacheKeyOf level message)
        = some { count := (entryBefore cache level message).count + 1,
                 lastSent := (entryBefore cache level message).lastSent }
    ∧ ∀ k, k ≠ cacheKeyOf level message →
        (write cfg name W cache level message raw now).cache k = cache k := by
  rw [write_not_sent_eq cfg name W cache level message raw now h]
  exact ⟨rfl, rfl, Cache.set_same .., fun k hk => Cache.set_other _ _ _ _ hk⟩

theorem no_send_frame_c6_witness :
    ¬ ((30000 : Int) - (entryBefore (Cache.set emptyCache (cacheKeyOf "error" "disk full")
          { count := 0, lastSent := 0 }) "error" "disk full").lastSent > 60000)
    ∧ (write sampleConfig "App" 60000 (Cache.set emptyCache (cacheKeyOf "error" "disk full")
          { count := 0, lastSent := 0 }) "error" "disk full" "r" 30000).emails = []
    ∧ (write sampleConfig "App" 60000 (Cache.set emptyCache (cacheKeyOf "error" "disk full")
          { count := 0, lastSent := 0 }) "error" "disk full" "r" 30000).cache
        (cacheKeyOf "error" "disk full") = some { count := 1, lastSent := 0 }
    ∧ (write sampleConfig "App" 60000 (Cache.set emptyCache (cacheKeyOf "error" "disk full")
          { count := 0, lastSent := 0 }) "error" "disk full" "r" 30000).cache "other"
        = Cache.set emptyCache (cacheKeyOf "error" "disk full")
            { count := 0, lastSent := 0 } "other" := by
  have h := no_send_frame_c6 sampleConfig "App" 60000
    (Cache.set emptyCache (cacheKeyOf "error" "disk full") { count := 0, lastSent := 0 })
    "error" "disk full" "r" 30000 (by decide)
  exact ⟨by decide, h.2.1, h.2.2.1, h.2.2.2 "other" (by decide)⟩

/-- C4: with the window configured as `0`, an event sends iff `now` is
strictly after the entry's `lastSent` (`0` for a never-sent signature); an
event at the exact millisecond of the previous send does not send. -/
theorem zero_window_c4 (cfg : Config) (name : String) (cache : Cache)
    (level message raw : String) (now : Int) :
    (write cfg name (normWindow (some 0)) cache level message raw now).sent
      = decide (now > (entryBefore cache level message).lastSent)
    ∧ (now = (entryBefore cache level message).lastSent →
        (write cfg name (normWindow (some 0)) cache level message raw now).sent = false) := by
  have hn : normWindow (some 0) = 0 := rfl
  rw [hn]
  have h1 := (dedup_decision_c1 cfg name 0 cache level message raw now).1
  constructor
  · rw [h1]
    by_cases h : now > (entryBefore cache level message).lastSent
    · simp [h, show now - (entryBefore cache level message).lastSent > 0 by omega]
    · simp [h, show ¬ (now - (entryBefore cache level message).lastSent > 0) by omega]
  · intro he
    rw [h1]
    simp [he]

theorem zero_window_c4_witness :
    (write sampleConfig "App" (normWindow (some 0)) emptyCache "error" "disk full" "r" 0).sent
      = decide ((0 : Int) > (entryBefore emptyCache "error" "disk full").lastSent)
    ∧ (write sampleConfig "App" (normWindow (some 0)) emptyCache "error" "disk full" "r" 0).sent
      = false :=
  have h := zero_window_c4 sampleConfig "App" emptyCache "error" "disk full" "r" 0
  ⟨h.1, h.2 (by decide)⟩

/-- C10: for the first-ever occurrence of a signature (no cache entry, so the
lazily created entry carries the sentinel `lastSent = 0`), the send decision
is `now > W`, not unconditional truth: with `now ≤ W` even a first-ever
occurrence sends nothing. -/
theorem first_occurrence_sentinel_c10 (cfg : Config) (name : String) (W : Int)
    (cache : Cache) (level message raw : String) (now : Int)
    (h : cache (cacheKeyOf level message) = none) :
    (write cfg name W cache level message raw now).sent = decide (now > W)
    ∧ (now ≤ W → (write cfg name W cache level message raw now).sent = false) := by
  have he : entryBefore cache level message = { count := 0, lastSent := 0 } := by
    simp [entryBefore, h]
  have h1 := (dedup_decision_c1 cfg name W cache level message raw now).1
  rw [he] at h1
  constructor
  · rw [h1]
    by_cases hgt : now > W
    · simp [hgt, show now - 0 > W by omega]
    · simp [hgt, show ¬ (now - 0 > W) by omega]
  · intro hle
    rw [h1]
    simp
    omega

theorem first_occurrence_sentinel_c10_witness :
    emptyCache (cacheKeyOf "error" "disk full") = none
    ∧ (write sampleConfig "App" 60000 emptyCache "error" "disk full" "r" 50000).sent
        = decide ((50000 : Int) > 60000)
    ∧ (write sampleConfig "App" 60000 emptyCache "error" "disk full" "r" 50000).sent = false :=
  have h := first_occurrence_sentinel_c10 sampleConfig "App" 60000 emptyCache
    "error" "disk full" "r" 50000 rfl
  ⟨rfl, h.1, h.2 (by decide)⟩

/-- A cache that has already seen the signature `error: disk full`. -/
def seenCache : Cache :=
  Cache.set emptyCache (cacheKeyOf "error" "disk full") { count := 5, lastSent := 40000 }

/-- C5 counterexample: after the daily clear, the next occurrence of the
previously-seen signature does send (clock past the window), but the entry
after the send is `{count := 0, lastSent := now}` — its count is 0, not 1 as
the claim states (`logger.ts:97`). -/
theorem clear_reset_c5_counterexample :
    (write sampleConfig "App" 60000 (Cache.clear seenCache)
        "error" "disk full" "r" 100000).sent = true
    ∧ (write sampleConfig "App" 60000 (Cache.clear seenCache)
        "error" "disk full" "r" 100000).cache (cacheKeyOf "error" "disk full")
      = some { count := 0, lastSent := 100000 }
    ∧ ¬ ((write sampleConfig "App" 60000 (Cache.clear seenCache)
        "error" "disk full" "r" 100000).cache (cacheKeyOf "error" "disk full")
      = some { count := 1, lastSent := 100000 }) := by
  refine ⟨by decide, by decide, by decide⟩

/-- C5 (amended): after the periodic clear empties the map, the next
occurrence of a previously-seen signature is treated as first-ever — provided
`now > W` (true for real epoch clocks) it sends immediately, the email reports
1 occurrence, and the entry after the send is `{count := 0, lastSent := now}`. -/
theorem clear_reset_c5_amended (cfg : Config) (name : String) (W : Int)
    (cache : Cache) (level message raw : String) (now : Int) (h : W < now) :
    (write cfg name W (Cache.clear cache) level message raw now).sent = true
    ∧ (write cfg name W (Cache.clear cache) level message raw now).emails
        = sendErrorEmails cfg (emailSubject name W 1) raw
    ∧ (write cfg name W (Cache.clear cache) level message raw now).cache
        (cacheKeyOf level message) = some { count := 0, lastSent := now } := by
  have he : entryBefore (Cache.clear cache) level message = { count := 0, lastSent := 0 } := rfl
  have hgt : now - (entryBefore (Cache.clear cache) level message).lastSent > W := by
    rw [he]; show now - (0 : Int) > W; omega
  rw [write_sent_eq cfg name W (Cache.clear cache) level message raw now hgt]
  rw [he]
  exact ⟨rfl, rfl, Cache.set_same ..⟩

theorem clear_reset_c5_amended_witness :
    (60000 : Int) < 100000
    ∧ ((write sampleConfig "App" 60000 (Cache.clear seenCache)
          "error" "disk full" "r" 100000).sent = true
      ∧ (write sampleConfig "App" 60000 (Cache.clear seenCache)
          "error" "disk full" "r" 100000).emails
          = sendErrorEmails sampleConfig (emailSubject "App" 60000 1) "r"
      ∧ (write sampleConfig "App" 60000 (Cache.clear seenCache)
          "error" "disk full" "r" 100000).cache (cacheKeyOf "error" "disk full")
          = some { count := 0, lastSent := 100000 }) :=
  ⟨by decide,
   clear_reset_c5_amended sampleConfig "App" 60000 seenCache
     "error" "disk full" "r" 100000 (by decide)⟩

/-- Events that arrive within the window of `lastSent = t1` are absorbed: no
email, the entry's count accumulates, `lastSent` stays `t1`. -/
theorem runWrites_absorbed (cfg : Config) (name : String) (W : Int)
    (level message raw : String) (t1 : Int) (ts : List Int) :
    ∀ (c : Cache) (k : Nat),
      c (cacheKeyOf level message) = some { count := k, lastSent := t1 } →
      (∀ t ∈ ts, t - t1 ≤ W) →
      (runWrites cfg name W c (ts.map fun t => (level, message, raw, t))).1
          = ts.map (fun _ => [])
      ∧ (runWrites cfg name W c (ts.map fun t => (level, message, raw, t))).2
            (cacheKeyOf level message)
          = some { count := k + ts.length, lastSent := t1 } := by
  induction ts with
  | nil => intro c k hc _; simpa [runWrites] using hc
  | cons t ts ih =>
    intro c k hc hts
    have he : entryBefore c level message = { count := k, lastSent := t1 } := by
      simp [entryBefore, hc]
    have hno : ¬ (t - (entryBefore c level message).lastSent > W) := by
      rw [he]
      have := hts t (by simp)
      simpa using this
    have hw := write_not_sent_eq cfg name W c level message raw t hno
    rw [he] at hw
    simp only [List.map_cons, runWrites, hw]
    have hc' : Cache.set c (cacheKeyOf level message) { count := k + 1, lastSent := t1 }
        (cacheKeyOf level message) = some { count := k + 1, lastSent := t1 } :=
      Cache.set_same ..
    have := ih (Cache.set c (cacheKeyOf level message) { count := k + 1, lastSent := t1 })
      (k + 1) hc' (fun t' ht' => hts t' (by simp [ht']))
    refine ⟨by simp [this.1], ?_⟩
    rw [this.2]
    have harith : k + 1 + ts.length = k + (t :: ts).length := by
      simp only [List.length_cons]; omega
    rw [harith]

theorem flatten_map_nil {α β : Type} (l : List α) :
    (l.map fun _ => ([] : List β)).flatten = [] := by
  induction l with
  | nil => rfl
  | cons x xs ih => simp [ih]

/-- C2 counterexample: two events with one signature, 1 ms apart (span far
shorter than the 60000 ms window), starting from an empty cache. Exactly one
email is dispatched — but its subject reports 1 occurrence, not the batch size
2 the claim requires. -/
theorem batch_count_c2_counterexample :
    (runWrites sampleConfig "App" 60000 emptyCache
        [("error", "disk full", "r", 100000), ("error", "disk full", "r", 100001)]).1.flatten
      = [{ fromAddr := "noreply@example.com", toAddr := "ops@example.com",
           subject := "App Error (1 occurrences in past 1 minutes)", text := "r" }]
    ∧ "App Error (1 occurrences in past 1 minutes)" ≠ emailSubject "App" 60000 2 := by
  refine ⟨by decide, by decide⟩

/-- C2 (amended): for a sequence of events sharing one signature, all within
a span shorter than the window `W > 0`, starting from an empty cache with a
realistic clock (`t1 > W`): exactly one email batch is dispatched — at the
first event, reporting 1 occurrence — and the remaining events are absorbed
into the entry's count (to be reported by the next send after the window),
leaving the entry at `{count := rest.length, lastSent := t1}`. -/
theorem batch_count_c2_amended (cfg : Config) (name : String) (W : Int)
    (level message raw : String) (t1 : Int) (rest : List Int)
    (h1 : W < t1) (hrest : ∀ t ∈ rest, 0 ≤ t - t1 ∧ t - t1 ≤ W) :
    (runWrites cfg name W emptyCache
        ((t1 :: rest).map fun t => (level, message, raw, t))).1.flatten
      = sendErrorEmails cfg (emailSubject name W 1) raw
    ∧ (runWrites cfg name W emptyCache
        ((t1 :: rest).map fun t => (level, message, raw, t))).2 (cacheKeyOf level message)
      = some { count := rest.length, lastSent := t1 } := by
  have he : entryBefore emptyCache level message = { count := 0, lastSent := 0 } := rfl
  have hgt : t1 - (entryBefore emptyCache level message).lastSent > W := by
    rw [he]; show t1 - (0 : Int) > W; omega
  have hw := write_sent_eq cfg name W emptyCache level message raw t1 hgt
  rw [he] at hw
  simp only [List.map_cons, runWrites, hw]
  have habs := runWrites_absorbed cfg name W level message raw t1 rest
    (Cache.set emptyCache (cacheKeyOf level message) { count := 0, lastSent := t1 }) 0
    (Cache.set_same ..) (fun t ht => (hrest t ht).2)
  refine ⟨?_, by simpa using habs.2⟩
  rw [habs.1]
  simp [flatten_map_nil]

theorem batch_count_c2_amended_witness :
    ((60000 : Int) < 100000
      ∧ ∀ t ∈ ([100001] : List Int), 0 ≤ t - 100000 ∧ t - 100000 ≤ 60000)
    ∧ ((runWrites sampleConfig "App" 60000 emptyCache
          (([100000, 100001] : List Int).map fun t => ("error", "disk full", "r", t))).1.flatten
        = sendErrorEmails sampleConfig (emailSubject "App" 60000 1) "r"
      ∧ (runWrites sampleConfig "App" 60000 emptyCache
          (([100000, 100001] : List Int).map fun t => ("error", "disk full", "r", t))).2
            (cacheKeyOf "error" "disk full")
        = some { count := 1, lastSent := 100000 }) :=
  ⟨⟨by decide, by decide⟩,
   batch_count_c2_amended sampleConfig "App" 60000 "error" "disk full" "r"
     100000 [100001] (by decide) (by decide)⟩

/-- C7: a true send decision attempts exactly one send per configured
recipient; the attempt list does not depend on which recipients' sends fail
(each recipient's `sendMail` call is made unconditionally in the loop at
`logger.ts:86-95`), and each failure produces exactly one console diagnostic
line, never an exception or retry. -/
theorem recipients_dispatch_c7 (cfg : Config) (subject text : String)
    (ok : String → Bool) :
    (dispatchWithOutcomes cfg subject text ok).1.length = cfg.EMAIL_TO.length
    ∧ (∀ admin ∈ cfg.EMAIL_TO,
        mkErrorEmail cfg subject text admin ∈ (dispatchWithOutcomes cfg subject text ok).1)
    ∧ (dispatchWithOutcomes cfg subject text ok).1
        = (dispatchWithOutcomes cfg subject text (fun _ => true)).1
    ∧ (dispatchWithOutcomes cfg subject text ok).2.length
        = (cfg.EMAIL_TO.filter (fun a => !(ok a))).length := by
  refine ⟨by simp [dispatchWithOutcomes, sendErrorEmails], ?_, rfl,
    by simp [dispatchWithOutcomes]⟩
  intro admin h
  simp only [dispatchWithOutcomes, sendErrorEmails]
  exact List.mem_map_of_mem _ h

theorem recipients_dispatch_c7_witness :
    "ops@example.com" ∈ sampleConfig.EMAIL_TO
    ∧ mkErrorEmail sampleConfig "s" "t" "ops@example.com"
        ∈ (dispatchWithOutcomes sampleConfig "s" "t" (fun _ => false)).1 :=
  ⟨by decide,
   (recipients_dispatch_c7 sampleConfig "s" "t" (fun _ => false)).2.1
     "ops@example.com" (by decide)⟩

/-- C8: a record reaching the `write` callback that `JSON.parse` cannot parse
makes the callback throw at `logger.ts:73` — the dispatcher crashes and
nothing is forwarded, contradicting the spec's no-crash / forward-as-opaque-
text requirement. -/
theorem malformed_record_crashes_c8 :
    writeRaw sampleConfig "App" 60000 emptyCache
        { raw := "not-json", parsed := none } 100000
      = .error "SyntaxError: Unexpected token in JSON" := rfl

/-- JavaScript `split` never yields an empty piece list. -/
theorem splitOnChar_ne_nil (sep : Char) (l : List Char) : splitOnChar sep l ≠ [] := by
  induction l with
  | nil => simp [splitOnChar]
  | cons c rest ih =>
    rw [splitOnChar]
    split
    · exact List.cons_ne_nil _ _
    · cases h : splitOnChar sep rest with
      | nil => simp
      | cons hd tl => simp

/-- C9: the `EMAIL_TO` transform succeeds iff every comma-separated,
trimmed entry passes the address regex — so any value containing an invalid
entry makes `envSchema.parse` throw (fatal at startup, before any logger is
constructed) — and a successful parse always yields at least one address,
all valid. -/
theorem emailto_validation_c9 (l : List Char) :
    ((parseEMAIL_TO l).isOk = true
      ↔ ∀ e ∈ (splitOnChar ',' l).map trimChars, emailRegexTest e = true)
    ∧ ∀ es, parseEMAIL_TO l = .ok es →
        es ≠ [] ∧ ∀ e ∈ es, emailRegexTest e = true := by
  simp only [parseEMAIL_TO]
  split
  case isTrue h =>
    rw [List.all_eq_true] at h
    refine ⟨by simpa [Except.isOk, Except.toBool] using h, ?_⟩
    intro es hes
    injection hes with h2
    subst h2
    refine ⟨?_, h⟩
    intro hnil
    exact splitOnChar_ne_nil ',' l (by simpa using hnil)
  case isFalse h =>
    constructor
    · constructor
      · intro hfalse
        simp [Except.isOk, Except.toBool] at hfalse
      · intro hall
        exact absurd (List.all_eq_true.mpr hall) h
    · intro es hes
      exact Except.noConfusion hes

theorem emailto_validation_c9_witness :
    (parseEMAIL_TO ("ops@example.com").data).isOk = true
    ∧ ([("ops@example.com").data] : List (List Char)) ≠ []
    ∧ ∀ e ∈ ([("ops@example.com").data] : List (List Char)), emailRegexTest e = true :=
  have h := emailto_validation_c9 ("ops@example.com").data
  have hok := h.2 [("ops@example.com").data] rfl
  ⟨h.1.mpr (by decide), hok.1, hok.2⟩

end PyraLogger
